import Mathlib

/-!
Verification development for the natural-language-ffmpeg directive parser and
filter-graph compiler.

The definitions below are a shallow embedding of the TypeScript sources:

* the tokenizer, pattern registry, command matcher and entry point of
  src/app/parser/parser.ts;
* the crop optimizer, filter builders and argument assembler of the compiler
  module (processAndReorderCommands / translateToFfmpeg);
* the legacy editor snapshot of buildCropFilter / buildCropFilterWithVariables;
* the standalone parser page component with its module-scope accumulators.

Modelling conventions:

* JavaScript numbers that can be NaN are modelled as `Option Int` (`none` is
  NaN); arithmetic absorbs `none` and every comparison with `none` is false,
  matching NaN semantics.  All numbers reaching arithmetic in these code paths
  are integral except the fractional seconds of trim times, which are modelled
  as exact decimal values (JavaScript double rounding is abstracted to exact
  decimal arithmetic).
* JavaScript `undefined` read from an out-of-range array index or a missing
  object key is modelled by the string "undefined", which agrees with the
  observable uses in the source (strict equality with a literal is false, and
  regular-expression tests coerce undefined to the string "undefined").
* Regular expressions are translated to decidable predicates on strings with
  the same acceptance behaviour, including their anchoring (or lack of it).
* The media descriptor is modelled with its resolution already split into a
  width/height pair (the sources read video.resolution.raw of the shape WxH
  and split it on the letter x); an absent or empty raw string is `none`.
-/

/-! ## JavaScript number model -/

/-- JavaScript number restricted to the integral values arising in the crop
and filter code paths; `none` models NaN. -/
abbrev JNum := Option Int

/-- Addition with NaN absorption. -/
def jsAdd : JNum → JNum → JNum
  | some a, some b => some (a + b)
  | _, _ => none

/-- Subtraction with NaN absorption. -/
def jsSub : JNum → JNum → JNum
  | some a, some b => some (a - b)
  | _, _ => none

/-- Multiplication with NaN absorption. -/
def jsMul : JNum → JNum → JNum
  | some a, some b => some (a * b)
  | _, _ => none

/-- Comparison a >= b; any comparison involving NaN is false. -/
def jsGe : JNum → JNum → Bool
  | some a, some b => decide (a ≥ b)
  | _, _ => false

/-- Comparison a > b; any comparison involving NaN is false. -/
def jsGt : JNum → JNum → Bool
  | some a, some b => decide (a > b)
  | _, _ => false

/-- Comparison a <= b; any comparison involving NaN is false. -/
def jsLe : JNum → JNum → Bool
  | some a, some b => decide (a ≤ b)
  | _, _ => false

/-- Comparison a < b; any comparison involving NaN is false. -/
def jsLt : JNum → JNum → Bool
  | some a, some b => decide (a < b)
  | _, _ => false

/-- Strict equality of numbers; NaN === anything is false. -/
def jsEqNum : JNum → JNum → Bool
  | some a, some b => a == b
  | _, _ => false

/-- String interpolation of a JavaScript number (NaN prints as NaN). -/
def jstr : JNum → String
  | some n => toString n
  | none => "NaN"

/-! ## String utilities mirroring the JavaScript operations used -/

/-- Digit list to natural number, most significant digit first. -/
def digitsToNat (l : List Char) : Nat :=
  l.foldl (fun a c => 10 * a + (c.toNat - '0'.toNat)) 0

/-- Leading digit run of a character list, `none` when there is none. -/
def digitsOpt (l : List Char) : Option Nat :=
  let d := l.takeWhile Char.isDigit
  if d.isEmpty then none else some (digitsToNat d)

/-- JavaScript parseInt restricted to the strings fed to it here: an optional
sign followed by a digit run; any other shape yields NaN (`none`).  The
sources never pass strings with leading whitespace (tokens cannot start with
whitespace), so the whitespace trimming of parseInt is not modelled. -/
def jsParseInt (s : String) : Option Int :=
  match s.data with
  | '-' :: r => (digitsOpt r).map (fun n => -(n : Int))
  | '+' :: r => (digitsOpt r).map (fun n => (n : Int))
  | l => (digitsOpt l).map (fun n => (n : Int))

/-- Exact decimal value num / 10 ^ exp10, standing in for the JavaScript
double produced by parseFloat on the decimal time strings. -/
structure DecVal where
  num : Int
  exp10 : Nat
deriving DecidableEq

/-- Strict order on exact decimal values by cross multiplication. -/
def DecVal.ltb (a b : DecVal) : Bool :=
  decide (a.num * (10 : Int) ^ b.exp10 < b.num * (10 : Int) ^ a.exp10)

/-- JavaScript parseFloat restricted to the strings fed to it here: a digit
run optionally followed by a dot and a fractional digit run; any other shape
yields NaN (`none`).  Sign, exponent and whitespace forms never occur on the
guarded call sites. -/
def jsParseFloatDec (s : String) : Option DecVal :=
  let l := s.data
  let d := l.takeWhile Char.isDigit
  let r := l.dropWhile Char.isDigit
  if d.isEmpty then none
  else
    match r with
    | '.' :: t =>
      let f := t.takeWhile Char.isDigit
      some ⟨(digitsToNat d * 10 ^ f.length + digitsToNat f : Nat), f.length⟩
    | _ => some ⟨(digitsToNat d : Nat), 0⟩

/-- Comparison of optional decimal values; false when either is NaN. -/
def jsLtDec : Option DecVal → Option DecVal → Bool
  | some a, some b => DecVal.ltb a b
  | _, _ => false

/-- Replace the first occurrence of pat (nonempty) in a character list,
mirroring String.prototype.replace with a plain-string pattern. -/
def replaceFirstAux (pat rep : List Char) : List Char → List Char
  | [] => []
  | c :: r =>
    if pat.isPrefixOf (c :: r) then rep ++ (c :: r).drop pat.length
    else c :: replaceFirstAux pat rep r

/-- JavaScript s.replace(pat, rep) for a plain-string pattern: only the first
occurrence is replaced. -/
def jsReplaceFirst (s pat rep : String) : String :=
  String.mk (replaceFirstAux pat.data rep.data s.data)

/-- JavaScript s.replace(/"/g, "") : remove every double quote. -/
def removeQuotes (s : String) : String :=
  String.mk (s.data.filter (fun c => c ≠ '"'))

/-- Split a character list on a separator character; JavaScript
String.prototype.split semantics (an empty string yields one empty part,
adjacent separators yield empty parts). -/
def splitCharList (sep : Char) : List Char → List (List Char)
  | [] => [[]]
  | c :: r =>
    if c = sep then [] :: splitCharList sep r
    else
      match splitCharList sep r with
      | [] => [[c]]
      | p :: ps => (c :: p) :: ps

/-- JavaScript s.split(sep) for a one-character separator. -/
def jsSplitChar (sep : Char) (s : String) : List String :=
  (splitCharList sep s.data).map String.mk

/-- Substring test: does the pattern occur anywhere in the list? -/
def hasSubList (pat : List Char) : List Char → Bool
  | [] => pat.isPrefixOf []
  | c :: r => pat.isPrefixOf (c :: r) || hasSubList pat r

/-- Substring test on strings (an unanchored literal regular expression). -/
def hasSubStr (pat s : String) : Bool :=
  hasSubList pat.data s.data

/-- Anchored suffix test on strings. -/
def endsWithStr (pat s : String) : Bool :=
  pat.data.isSuffixOf s.data

/-- Case-insensitive anchored suffix test (for a regular expression with the
i flag whose pattern is lowercase). -/
def endsWithStrCI (pat s : String) : Bool :=
  pat.data.isSuffixOf (s.data.map Char.toLower)

/-- Characters matched by the JavaScript whitespace class backslash-s. -/
def isJsWhitespace (c : Char) : Bool :=
  c = ' ' || c = '\t' || c = '\n' || c = '\r' || c = '\x0b' || c = '\x0c' ||
  c = '\u00A0' || c = '\u1680' || c = '\u2000' || c = '\u2001' ||
  c = '\u2002' || c = '\u2003' || c = '\u2004' || c = '\u2005' ||
  c = '\u2006' || c = '\u2007' || c = '\u2008' || c = '\u2009' ||
  c = '\u200A' || c = '\u2028' || c = '\u2029' || c = '\u202F' ||
  c = '\u205F' || c = '\u3000' || c = '\uFEFF'

/-- Characters the JavaScript dot does not match (no s flag). -/
def isRegexNewline (c : Char) : Bool :=
  c = '\n' || c = '\r' || c = '\u2028' || c = '\u2029'

/-- JavaScript String.prototype.trim on a character list. -/
def jsTrimList (l : List Char) : List Char :=
  ((l.dropWhile isJsWhitespace).reverse.dropWhile isJsWhitespace).reverse

/-- JavaScript String.prototype.trim. -/
def jsTrimStr (s : String) : String :=
  String.mk (jsTrimList s.data)

/-! ## Tokenizer

The tokenizer is the global regular expression
(hash to end of line with its newline | double-quoted run | maximal run of
characters that are not whitespace, quote or hash) applied with
String.prototype.match: scanning left to right, at each position the three
alternatives are tried in order, and a position where none matches is skipped
without producing a token. -/

/-- Characters that may appear in a bare-word token (third alternative of the
token pattern). -/
def isBareChar (c : Char) : Bool :=
  !(isJsWhitespace c) && c ≠ '"' && c ≠ '#'

/-- Fuel-indexed tokenizer worker.  The fuel only bounds recursion depth; any
fuel at least the length of the input gives the tokenization. -/
def tokGo : Nat → List Char → List (List Char)
  | 0, _ => []
  | _ + 1, [] => []
  | fuel + 1, c :: rest =>
    if c = '#' then
      match rest.dropWhile (fun x => x ≠ '\n') with
      | [] => tokGo fuel rest
      | _ :: after =>
        ('#' :: rest.takeWhile (fun x => x ≠ '\n') ++ ['\n']) :: tokGo fuel after
    else if c = '"' then
      match rest.dropWhile (fun x => x ≠ '"') with
      | [] => tokGo fuel rest
      | _ :: after =>
        ('"' :: rest.takeWhile (fun x => x ≠ '"') ++ ['"']) :: tokGo fuel after
    else if isJsWhitespace c then
      tokGo fuel rest
    else
      (c :: rest.takeWhile isBareChar) :: tokGo fuel (rest.dropWhile isBareChar)

/-- Token sequence of a character list. -/
def tokChars (cs : List Char) : List (List Char) :=
  tokGo cs.length cs

/-- Token sequence of a source string, as strings (code.match(pattern)). -/
def tokenize (s : String) : List String :=
  (tokChars s.data).map String.mk

/-- Join token character lists with single spaces (tokens.join(" ")). -/
def joinSpace : List (List Char) → List Char
  | [] => []
  | [t] => t
  | t :: rest => t ++ ' ' :: joinSpace rest

/-! ## Regular-expression predicates of the pattern registry

Each definition translates one regular expression literal of the command
patterns, preserving its anchoring. -/

/-- Does any suffix of the list satisfy the start test (unanchored search). -/
def anySuffix (f : List Char → Bool) : List Char → Bool
  | [] => f []
  | c :: r => f (c :: r) || anySuffix f r

/-- The anchored cycle pattern: only digits, at least one. -/
def reDigitsAnchored (s : String) : Bool :=
  !s.data.isEmpty && s.data.all Char.isDigit

/-- The unanchored dot-plus pattern: true when some character is one the
JavaScript dot matches. -/
def reAnyTest (s : String) : Bool :=
  s.data.any (fun c => !(isRegexNewline c))

/-- The unanchored alternation video or audio. -/
def reVideoAudio (s : String) : Bool :=
  hasSubStr "video" s || hasSubStr "audio" s

/-- The unanchored output-format alternation of the convert pattern. -/
def reConvertFormat (s : String) : Bool :=
  ["mp4", "mov", "mkv", "webm", "gif", "mp3", "wav", "flac", "aac", "ogg",
   "png", "jpg", "webp", "avi", "mp4a"].any (fun p => hasSubStr p s)

/-- Start test for digits immediately followed by the letter x and a digit. -/
def startsDigitsX (l : List Char) : Bool :=
  let d := l.takeWhile Char.isDigit
  let r := l.dropWhile Char.isDigit
  !d.isEmpty &&
    (match r with
     | 'x' :: c2 :: _ => c2.isDigit
     | _ => false)

/-- The unanchored resolution pattern: digits, x, digits somewhere. -/
def reResolution (s : String) : Bool :=
  anySuffix startsDigitsX s.data

/-- Start test for digits immediately followed by the letters p and x. -/
def startsDigitsPx (l : List Char) : Bool :=
  let d := l.takeWhile Char.isDigit
  let r := l.dropWhile Char.isDigit
  !d.isEmpty &&
    (match r with
     | 'p' :: 'x' :: _ => true
     | _ => false)

/-- The unanchored crop-size pattern: digits followed by px somewhere. -/
def rePxSize (s : String) : Bool :=
  anySuffix startsDigitsPx s.data

/-- The unanchored crop-side alternation. -/
def reCropSide (s : String) : Bool :=
  ["top", "bottom", "left", "right", "width", "height", "each"].any
    (fun p => hasSubStr p s)

/-- The unanchored fade-operation alternation (the in-slash-out branch is
subsumed by the first two, exactly as in the source expression). -/
def reFadeOp (s : String) : Bool :=
  hasSubStr "in" s || hasSubStr "out" s || hasSubStr "in/out" s

/-- Start test for digits immediately followed by the letter s. -/
def startsDigitsS (l : List Char) : Bool :=
  let d := l.takeWhile Char.isDigit
  let r := l.dropWhile Char.isDigit
  !d.isEmpty &&
    (match r with
     | 's' :: _ => true
     | _ => false)

/-- The unanchored fade-duration pattern: digits followed by s somewhere. -/
def reDurSeconds (s : String) : Bool :=
  anySuffix startsDigitsS s.data

/-- The anchored quoted pattern: quote, any non-newline run, quote. -/
def reQuotedAnchored (s : String) : Bool :=
  s.data.length ≥ 2 && s.data.headD ' ' == '"' && s.data.getLastD ' ' == '"' &&
    (s.data.drop 1).dropLast.all (fun c => !(isRegexNewline c))

/-- The unanchored burn content-type alternation. -/
def reBurnContentType (s : String) : Bool :=
  hasSubStr "text" s || hasSubStr "image" s || hasSubStr "subtitles" s

/-- The unanchored burn position alternation. -/
def reBurnPosition (s : String) : Bool :=
  ["top-left", "top-right", "bottom-left", "bottom-right", "center", "left",
   "right", "top", "bottom", "default"].any (fun p => hasSubStr p s)

/-- The unanchored add-text position alternation. -/
def reAddTextPosition (s : String) : Bool :=
  ["top-left", "top-right", "bottom-left", "bottom-right", "center"].any
    (fun p => hasSubStr p s)

/-- The input file pattern: a slash anywhere, or a recognised media or
subtitle extension at the end (case-insensitive flag). -/
def reInputFile (s : String) : Bool :=
  hasSubStr "/" s ||
    ["mp4", "avi", "mov", "mkv", "webm", "mp3", "wav", "flac", "aac", "jpg",
     "jpeg", "png", "gif", "srt", "ass", "vtt"].any
      (fun e => endsWithStrCI ("." ++ e) s)

/-! ## Trim time validation (validateTrimParams) -/

/-- Seconds tail of the time pattern: one or two digits with an optional dot
and a nonempty fractional digit run, consuming the whole part. -/
def isSecTail (l : List Char) : Bool :=
  let d := l.takeWhile Char.isDigit
  let r := l.dropWhile Char.isDigit
  (d.length = 1 || d.length = 2) &&
    (match r with
     | [] => true
     | '.' :: t => !t.isEmpty && t.all Char.isDigit
     | _ => false)

/-- One or two digits, consuming the whole part (minutes group). -/
def is12Digits (l : List Char) : Bool :=
  (l.length = 1 || l.length = 2) && l.all Char.isDigit

/-- At least one digit, consuming the whole part (hours group). -/
def isDigitsNonempty (l : List Char) : Bool :=
  !l.isEmpty && l.all Char.isDigit

/-- The anchored time pattern of validateTrimParams: seconds, or minutes and
seconds, or hours and minutes and seconds, with the digit-count limits of the
regular expression, stated over the colon-separated parts. -/
def timePatternTest (s : String) : Bool :=
  match jsSplitChar ':' s with
  | [sec] => isSecTail sec.data
  | [mins, sec] => is12Digits mins.data && isSecTail sec.data
  | [hrs, mins, sec] =>
    isDigitsNonempty hrs.data && is12Digits mins.data && isSecTail sec.data
  | _ => false

/-- The inner validateFormat closure: the time pattern must match and the
extracted seconds, minutes and hours fields must be below 60, 60 and 24. -/
def validateFormat (value : String) : Bool :=
  if !(timePatternTest value) then false
  else
    let parts := jsSplitChar ':' value
    let seconds := jsParseFloatDec (parts.getLastD "undefined")
    let minutes :=
      if parts.length > 1 then jsParseInt (parts.getD (parts.length - 2) "undefined")
      else some 0
    let hours :=
      if parts.length > 2 then jsParseInt (parts.getD (parts.length - 3) "undefined")
      else some 0
    jsLtDec seconds (some ⟨60, 0⟩) && jsLt minutes (some 60) && jsLt hours (some 24)

/-- The inner convertToSeconds closure: hours times 3600 plus minutes times 60
plus fractional seconds when the time pattern matches, otherwise a bare
parseFloat of the value (dead under the validateFormat guard). -/
def convertToSeconds (value : String) : Option DecVal :=
  if timePatternTest value then
    let parts := jsSplitChar ':' value
    let seconds := jsParseFloatDec (parts.getLastD "undefined")
    let minutes :=
      if parts.length > 1 then jsParseInt (parts.getD (parts.length - 2) "undefined")
      else some 0
    let hours :=
      if parts.length > 2 then jsParseInt (parts.getD (parts.length - 3) "undefined")
      else some 0
    match hours, minutes, seconds with
    | some h, some m, some s =>
      some ⟨(h * 3600 + m * 60) * (10 : Int) ^ s.exp10 + s.num, s.exp10⟩
    | _, _, _ => none
  else jsParseFloatDec value

/-- validateTrimParams: both time strings must satisfy validateFormat and the
end time must be strictly greater than the start time in total seconds. -/
def validateTrimParams (start stop : String) : Bool :=
  if !(validateFormat start) || !(validateFormat stop) then false
  else jsLtDec (convertToSeconds start) (convertToSeconds stop)

/-- validateComment: the token starts with a hash and ends with a newline. -/
def validateComment (s : String) : Bool :=
  s.data.headD ' ' == '#' && s.data.getLastD ' ' == '\n'

/-! ## Command nodes and the pattern registry -/

/-- Typed command nodes (the Command union of the shared types module).  The
field called end in the source is called stop here because end is reserved. -/
inductive Command where
  | Deduplicate (cycle : JNum)
  | Input (fileSelector : String) (filename : Option String)
  | Trim (start stop : String)
  | Convert (outputFormat : String)
  | Compress (bucket : String)
  | Scale (width height aspectRatio : String)
  | Crop (cropSize side : String)
  | OptimizedCrop (leftCrop rightCrop topCrop bottomCrop : JNum)
      (isOptimized : Bool)
  | Fade (operation duration : String)
  | ContentOverlay (content contentType position : String)
  | TextOverlay (text position alignment : String) (margin : JNum)
  | Comment (content : String)
deriving DecidableEq

/-- The type tag string of a node (command.type). -/
def Command.typeName : Command → String
  | .Deduplicate _ => "Deduplicate"
  | .Input _ _ => "Input"
  | .Trim _ _ => "Trim"
  | .Convert _ => "Convert"
  | .Compress _ => "Compress"
  | .Scale _ _ _ => "Scale"
  | .Crop _ _ => "Crop"
  | .OptimizedCrop _ _ _ _ _ => "OptimizedCrop"
  | .Fade _ _ => "Fade"
  | .ContentOverlay _ _ _ => "ContentOverlay"
  | .TextOverlay _ _ _ _ => "TextOverlay"
  | .Comment _ => "Comment"

/-- The parameter record bound during matching (Record of string to string). -/
abbrev Params := List (String × String)

/-- Read a bound parameter; a missing key is JavaScript undefined. -/
def pget (params : Params) (key : String) : String :=
  (List.lookup key params).getD "undefined"

/-- Return value of a pattern validator: a boolean or a message string. -/
inductive VRes where
  | bool (b : Bool)
  | str (s : String)

/-- JavaScript truthiness of a validator result: any nonempty string is
truthy. -/
def VRes.truthy : VRes → Bool
  | .bool b => b
  | .str s => s != ""

/-- Expected content of one token position: a literal string or a regular
expression (kept as its translated test). -/
inductive Expected where
  | lit (s : String)
  | re (test : String → Bool)

/-- One entry of expectedTokens. -/
structure TokenCheck where
  position : Nat
  expected : Expected
  paramName : Option String
  optional : Bool

/-- One entry of the pattern registry. -/
structure CommandPattern where
  name : String
  expectedTokens : List TokenCheck
  validate : Params → VRes
  createNode : Params → Command

/-- The registry (commandPatterns) in source order. -/
def commandPatterns : List CommandPattern := [
  { name := "remove_frames",
    expectedTokens := [
      ⟨1, .lit "every", none, false⟩,
      ⟨2, .re reDigitsAnchored, some "cycle", false⟩],
    validate := fun params =>
      let cycle := jsParseInt (pget params "cycle")
      if jsLt cycle (some 2) || jsGt cycle (some 30) then .str "Invalid cycle"
      else .bool true,
    createNode := fun params =>
      .Deduplicate (jsParseInt (pget params "cycle")) },
  { name := "input",
    expectedTokens := [
      ⟨1, .re reInputFile, some "fileSelector", false⟩],
    validate := fun _ => .bool true,
    createNode := fun params =>
      let fs := pget params "fileSelector"
      .Input fs (if fs != "/" then some fs else none) },
  { name := "trim",
    expectedTokens := [
      ⟨1, .lit "from", none, false⟩,
      ⟨2, .re reAnyTest, some "start", false⟩,
      ⟨3, .lit "to", none, false⟩,
      ⟨4, .re reAnyTest, some "end", false⟩],
    validate := fun params =>
      .bool (validateTrimParams (pget params "start") (pget params "end")),
    createNode := fun params =>
      .Trim (pget params "start") (pget params "end") },
  { name := "convert",
    expectedTokens := [
      ⟨1, .lit "to", none, false⟩,
      ⟨2, .re reConvertFormat, some "outputFormat", false⟩],
    validate := fun _ => .bool true,
    createNode := fun params => .Convert (pget params "outputFormat") },
  { name := "compress",
    expectedTokens := [
      ⟨1, .re reVideoAudio, some "bucket", false⟩],
    validate := fun _ => .bool true,
    createNode := fun params => .Compress (pget params "bucket") },
  { name := "scale",
    expectedTokens := [
      ⟨1, .lit "to", none, false⟩,
      ⟨2, .re reResolution, some "resolution", false⟩,
      ⟨3, .re (fun s => hasSubStr "preserve" s || hasSubStr "ignore" s),
        some "aspectRatio", false⟩,
      ⟨4, .lit "aspect", none, false⟩,
      ⟨5, .lit "ratio", none, false⟩],
    validate := fun _ => .bool true,
    createNode := fun params =>
      let parts := jsSplitChar 'x' (pget params "resolution")
      .Scale (parts.getD 0 "undefined") (parts.getD 1 "undefined")
        (pget params "aspectRatio") },
  { name := "crop",
    expectedTokens := [
      ⟨1, .re rePxSize, some "cropSize", false⟩,
      ⟨2, .lit "from", none, false⟩,
      ⟨3, .re reCropSide, some "side", false⟩],
    validate := fun _ => .bool true,
    createNode := fun params =>
      .Crop (pget params "cropSize") (pget params "side") },
  { name := "fade",
    expectedTokens := [
      ⟨1, .re reFadeOp, some "operation", false⟩,
      ⟨2, .lit "for", none, false⟩,
      ⟨3, .re reDurSeconds, some "duration", false⟩],
    validate := fun _ => .bool true,
    createNode := fun params =>
      .Fade (pget params "operation") (pget params "duration") },
  { name := "burn",
    expectedTokens := [
      ⟨1, .re reBurnContentType, some "contentType", false⟩,
      ⟨2, .re reQuotedAnchored, some "content", false⟩,
      ⟨3, .lit "at", none, false⟩,
      ⟨4, .re reBurnPosition, some "position", false⟩],
    validate := fun params =>
      if pget params "contentType" == "subtitles" then
        .bool (endsWithStr ".ass\"" (pget params "content") ||
               endsWithStr ".srt\"" (pget params "content"))
      else if pget params "contentType" == "image" then
        .bool (endsWithStr ".png\"" (pget params "content") ||
               endsWithStr ".jpeg\"" (pget params "content") ||
               endsWithStr ".jpg\"" (pget params "content"))
      else .bool true,
    createNode := fun params =>
      .ContentOverlay (pget params "content") (pget params "contentType")
        (pget params "position") },
  { name := "add_text",
    expectedTokens := [
      ⟨1, .re reQuotedAnchored, some "text", false⟩,
      ⟨2, .lit "at", none, false⟩,
      ⟨3, .re reAddTextPosition, some "position", false⟩],
    validate := fun _ => .bool true,
    createNode := fun params =>
      .TextOverlay (pget params "text") (pget params "position")
        ((List.lookup "alignment" params).getD "left")
        (match List.lookup "margin" params with
         | none => some 0
         | some v => if v == "" then some 0 else jsParseInt v) }]

/-! ## Command matcher -/

/-- Result of matching one directive (the Result union). -/
inductive Result where
  | failure (lastIndex : Nat) (error : String)
  | success (lastIndex : Nat) (node : Command) (source : String)
deriving DecidableEq

/-- First-failure walk over the expected tokens, binding named parameters
(the for loop of validateCommandPatterns): an error carries the failing
position (recorded as lastIndex) and the message. -/
def runChecks (command : String) (checks : List TokenCheck) (args : List String)
    (params : Params) : Except (Nat × String) Params :=
  match checks with
  | [] => .ok params
  | ck :: rest =>
    let token := args.getD ck.position "undefined"
    let validated :=
      match ck.expected with
      | .re test => test token
      | .lit s => token == s
    if validated then
      runChecks command rest args
        (match ck.paramName with
         | some k => (k, token) :: params
         | none => params)
    else
      .error (ck.position, command ++ ": Invalid command arguments \x7b" ++ token ++ "\x7d")

/-- validateCommandPatterns of the main parser: look the command up by its
first token, walk the expected tokens, run the semantic validator (note that
its result is only tested for JavaScript truthiness, so a nonempty message
string counts as success), and build the node and the source echo. -/
def validateCommandPatterns (args : List String) : Result :=
  let command := args.getD 0 "undefined"
  match commandPatterns.find? (fun p => p.name == command) with
  | none => .failure 0 ("Could not find a validator for " ++ command)
  | some validator =>
    match runChecks command validator.expectedTokens args [] with
    | .error e => .failure e.1 e.2
    | .ok params =>
      if !(validator.validate params).truthy then
        .failure (args.length - 1)
          ("Params didn't validate: \x7b" ++ String.intercalate " " args ++ "\x7d")
      else
        .success (args.length - 1) (validator.createNode params)
          (String.intercalate " " args)

/-- Maximum of a list of positions (Math.max over a spread array; every
pattern declares at least one token so the empty case never occurs). -/
def maxOfList (l : List Nat) : Nat :=
  l.foldl Nat.max 0

/-- processCommand: look up the pattern, check that the required positions
fit in the remaining tokens, slice the token window and validate it. -/
def processCommand (words : List String) (startIndex : Nat) : Result :=
  let command := words.getD startIndex "undefined"
  match commandPatterns.find? (fun p => p.name == command) with
  | none => .failure startIndex ("Unknown command: " ++ command)
  | some pat =>
    let requiredTokens :=
      (pat.expectedTokens.filter (fun t => !t.optional)).map (fun t => t.position)
    if requiredTokens.length > 0 &&
        decide (startIndex + maxOfList requiredTokens ≥ words.length) then
      .failure startIndex ("Incomplete command: " ++ command)
    else
      let maxPosition := maxOfList (pat.expectedTokens.map (fun t => t.position))
      let endIndex := min (startIndex + maxPosition + 1) words.length
      validateCommandPatterns ((words.drop startIndex).take (endIndex - startIndex))

/-! ## Parser entry point -/

/-- The externally visible parse result (errors, commands, parsedCommands). -/
structure ParserResult where
  errors : List String
  commands : List Command
  parsedCommands : List String
deriving DecidableEq

/-- The keyword guards of the main loop, in the order of its if statements. -/
def loopKeywords : List String :=
  ["remove_frames", "input", "trim", "add_text", "burn", "compress",
   "convert", "scale", "fade", "crop"]

/-- One keyword guard of the loop body: when the token at the current index
equals the keyword, match a command there, advance the index by the reported
lastIndex and record the outcome. -/
def handleKeyword (words : List String) (st : Nat × ParserResult)
    (name : String) : Nat × ParserResult :=
  let i := st.1
  let acc := st.2
  if words.getD i "undefined" == name then
    match processCommand words i with
    | .failure lastIndex err =>
      (i + lastIndex, { acc with errors := acc.errors ++ [err] })
    | .success lastIndex node src =>
      (i + lastIndex,
       { acc with
         commands := acc.commands ++ [node],
         parsedCommands := acc.parsedCommands ++ [src] })
  else st

/-- One iteration of the main loop: the comment test followed by the chain of
keyword guards, each observing the index as updated by the previous one. -/
def iterBody (words : List String) (i : Nat) (acc : ParserResult) :
    Nat × ParserResult :=
  let w := words.getD i "undefined"
  let acc :=
    if validateComment w then
      { acc with
        parsedCommands := acc.parsedCommands ++ [w],
        commands := acc.commands ++ [.Comment w] }
    else acc
  loopKeywords.foldl (handleKeyword words) (i, acc)

/-- The main loop with explicit fuel; the index grows by at least one per
iteration, so fuel equal to the number of tokens plus one always suffices. -/
def parserLoop (words : List String) : Nat → Nat → ParserResult → ParserResult
  | 0, _, acc => acc
  | fuel + 1, i, acc =>
    if i < words.length then
      let st := iterBody words i acc
      parserLoop words fuel (st.1 + 1) st.2
    else acc

/-- The parser entry point: replace the first semicolon by a space (the
String.prototype.replace call with a plain-string pattern), tokenize, and run
the matching loop; a tokenization with no matches returns the empty result. -/
def parser (input : String) : ParserResult :=
  let code := jsReplaceFirst input ";" " "
  let words := tokenize code
  if words.isEmpty then ⟨[], [], []⟩
  else parserLoop words (words.length + 1) 0 ⟨[], [], []⟩

/-! ## Compiler: crop optimizer, filter builders, assembler

Shallow embedding of the compiler module (COMMAND_ORDER, optimizeCrops,
createOptimizedCropCommand, the build functions, processAndReorderCommands
and the translateToFfmpeg wrapper).  JavaScript throw statements are modelled
with Except; the per-command try/catch of the processing loop is the local
handler of the one builder that can throw. -/

/-- The external media descriptor facts the compiler reads. -/
structure FileInfo where
  filename : Option String
  resolution : Option (Int × Int)
deriving DecidableEq

/-- One processed argument; the field called type in the source is called
ptype here. -/
structure ProcessedCommand where
  ptype : String
  value : String
  order : Int
deriving DecidableEq

/-- The COMMAND_ORDER stage-weight table. -/
def commandOrder (key : String) : Int :=
  if key == "input-trim" then 10
  else if key == "global" then 20
  else if key == "video-filter" then 30
  else if key == "audio-filter" then 40
  else if key == "output-format" then 50
  else if key == "output-codec" then 60
  else 0

/-- The transient crop accumulator of the optimizer pass. -/
structure CropAccumulator where
  leftCrop : JNum
  rightCrop : JNum
  topCrop : JNum
  bottomCrop : JNum
deriving DecidableEq

/-- Pixel amount of a crop node: parseInt of the size with its first px
removed. -/
def cropSizeVal (cropSize : String) : JNum :=
  jsParseInt (jsReplaceFirst cropSize "px" "")

/-- The accumulation loop of optimizeCrops: add each crop amount to the
fields selected by its side (width and height feed two fields, each feeds all
four; an unknown side only logs a warning). -/
def accumulateCrops (cropCommands : List Command) : CropAccumulator :=
  cropCommands.foldl
    (fun acc cmd =>
      match cmd with
      | .Crop cropSize side =>
        let size := cropSizeVal cropSize
        if side == "left" then { acc with leftCrop := jsAdd acc.leftCrop size }
        else if side == "right" then { acc with rightCrop := jsAdd acc.rightCrop size }
        else if side == "top" then { acc with topCrop := jsAdd acc.topCrop size }
        else if side == "bottom" then { acc with bottomCrop := jsAdd acc.bottomCrop size }
        else if side == "width" then
          { acc with leftCrop := jsAdd acc.leftCrop size,
                     rightCrop := jsAdd acc.rightCrop size }
        else if side == "height" then
          { acc with topCrop := jsAdd acc.topCrop size,
                     bottomCrop := jsAdd acc.bottomCrop size }
        else if side == "each" then
          { acc with leftCrop := jsAdd acc.leftCrop size,
                     rightCrop := jsAdd acc.rightCrop size,
                     topCrop := jsAdd acc.topCrop size,
                     bottomCrop := jsAdd acc.bottomCrop size }
        else acc
      | _ => acc)
    ⟨some 0, some 0, some 0, some 0⟩

/-- createOptimizedCropCommand: with a known resolution, throw when the
accumulated horizontal or vertical total reaches the corresponding dimension,
otherwise build the OptimizedCrop node carrying the four totals. -/
def createOptimizedCropCommand (acc : CropAccumulator) (fileInfo : FileInfo) :
    Except String Command :=
  match fileInfo.resolution with
  | some (width, height) =>
    let totalWidthCrop := jsAdd acc.leftCrop acc.rightCrop
    let totalHeightCrop := jsAdd acc.topCrop acc.bottomCrop
    if jsGe totalWidthCrop (some width) then
      .error ("Total width crop (" ++ jstr totalWidthCrop ++
        "px) exceeds video width (" ++ toString width ++ "px)")
    else if jsGe totalHeightCrop (some height) then
      .error ("Total height crop (" ++ jstr totalHeightCrop ++
        "px) exceeds video height (" ++ toString height ++ "px)")
    else
      .ok (.OptimizedCrop acc.leftCrop acc.rightCrop acc.topCrop acc.bottomCrop true)
  | none =>
    .ok (.OptimizedCrop acc.leftCrop acc.rightCrop acc.topCrop acc.bottomCrop true)

/-- Is a node a Crop node (cmd.type strict equality with Crop). -/
def isCropCmd : Command → Bool
  | .Crop _ _ => true
  | _ => false

/-- optimizeCrops: with at most one crop node the list is returned untouched;
otherwise the accumulated totals become one OptimizedCrop node prepended to
the non-crop nodes. -/
def optimizeCrops (commands : List Command) (fileInfo : FileInfo) :
    Except String (List Command) :=
  let cropCommands := commands.filter isCropCmd
  let otherCommands := commands.filter (fun c => !(isCropCmd c))
  if cropCommands.length ≤ 1 then .ok commands
  else
    match createOptimizedCropCommand (accumulateCrops cropCommands) fileInfo with
    | .error e => .error e
    | .ok optimizedCrop => .ok (optimizedCrop :: otherCommands)

/-- buildCropFilter of the compiler module.  A zero size yields the automatic
border-detection filter in both resolution branches; with a known resolution
the output dimensions are checked and a nonpositive result throws. -/
def buildCropFilter (cropSize side : String) (fileInfo : FileInfo) :
    Except String String :=
  let size := cropSizeVal cropSize
  match fileInfo.resolution with
  | some (w, h) =>
    if jsEqNum size (some 0) then .ok "cropdetect=24:16:0"
    else
      let dims : JNum × JNum × JNum × JNum :=
        if side == "left" then (jsSub (some w) size, some h, size, some 0)
        else if side == "right" then (jsSub (some w) size, some h, some 0, some 0)
        else if side == "top" then (some w, jsSub (some h) size, some 0, size)
        else if side == "bottom" then (some w, jsSub (some h) size, some 0, some 0)
        else if side == "width" then
          (jsSub (some w) (jsMul size (some 2)), some h, size, some 0)
        else if side == "height" then
          (some w, jsSub (some h) (jsMul size (some 2)), some 0, size)
        else if side == "each" then
          (jsSub (some w) (jsMul size (some 2)),
           jsSub (some h) (jsMul size (some 2)), size, size)
        else (jsSub (some w) size, some h, some 0, some 0)
      let outputWidth := dims.1
      let outputHeight := dims.2.1
      let xOffset := dims.2.2.1
      let yOffset := dims.2.2.2
      if jsLe outputWidth (some 0) || jsLe outputHeight (some 0) then
        .error ("Invalid crop dimensions: " ++ jstr outputWidth ++ "x" ++
          jstr outputHeight)
      else
        .ok ("crop=" ++ jstr outputWidth ++ ":" ++ jstr outputHeight ++ ":" ++
          jstr xOffset ++ ":" ++ jstr yOffset)
  | none =>
    if jsEqNum size (some 0) then .ok "cropdetect=24:16:0"
    else if side == "left" then
      .ok ("crop=iw-" ++ jstr size ++ ":ih:" ++ jstr size ++ ":0")
    else if side == "right" then
      .ok ("crop=iw-" ++ jstr size ++ ":ih:0:0")
    else if side == "top" then
      .ok ("crop=iw:ih-" ++ jstr size ++ ":0:" ++ jstr size)
    else if side == "bottom" then
      .ok ("crop=iw:ih-" ++ jstr size ++ ":0:0")
    else if side == "width" then
      .ok ("crop=iw-" ++ jstr (jsMul size (some 2)) ++ ":ih:" ++ jstr size ++ ":0")
    else if side == "height" then
      .ok ("crop=iw:ih-" ++ jstr (jsMul size (some 2)) ++ ":0:" ++ jstr size)
    else if side == "each" then
      .ok ("crop=iw-" ++ jstr (jsMul size (some 2)) ++ ":ih-" ++
        jstr (jsMul size (some 2)) ++ ":" ++ jstr size ++ ":" ++ jstr size)
    else
      .ok ("crop=iw-" ++ jstr size ++ ":ih:0:0")

/-- buildScaleFilter. -/
def buildScaleFilter (width height aspectRatio : String) : String :=
  if aspectRatio == "preserve" then
    "scale=" ++ width ++ ":" ++ height ++ ":force_original_aspect_ratio=decrease"
  else "scale=" ++ width ++ ":" ++ height

/-- buildTextOverlayFilter: strip every quote from the text and map the
position to coordinates, defaulting to center. -/
def buildTextOverlayFilter (text position : String) : String :=
  let cleanText := removeQuotes text
  let pos :=
    if position == "center" then "x=(w-text_w)/2:y=(h-text_h)/2"
    else if position == "top-left" then "x=10:y=10"
    else if position == "top-right" then "x=w-text_w-10:y=10"
    else if position == "bottom-left" then "x=10:y=h-text_h-10"
    else if position == "bottom-right" then "x=w-text_w-10:y=h-text_h-10"
    else "x=(w-text_w)/2:y=(h-text_h)/2"
  "drawtext=text='" ++ cleanText ++ "':fontsize=24:fontcolor=white:" ++ pos

/-- buildFadeFilter: the duration with its first letter s removed, in one of
the three operation shapes. -/
def buildFadeFilter (operation duration : String) : String :=
  let durationSecs := jsReplaceFirst duration "s" ""
  if operation == "in" then "fade=in:0:" ++ durationSecs
  else if operation == "out" then "fade=out:st=0:d=" ++ durationSecs
  else "fade=" ++ operation ++ ":0:" ++ durationSecs

/-- buildContentOverlayFilter: strip quotes; subtitles become a subtitles
filter, every other content type an overlay filter. -/
def buildContentOverlayFilter (content contentType : String) : String :=
  let cleanContent := removeQuotes content
  if contentType == "subtitles" then "subtitles=" ++ cleanContent
  else "overlay=" ++ cleanContent

/-- buildOptimizedCropFilter: all-zero totals yield the empty string; a known
resolution yields literal arithmetic, otherwise the symbolic iw/ih shapes. -/
def buildOptimizedCropFilter (leftCrop rightCrop topCrop bottomCrop : JNum)
    (fileInfo : FileInfo) : String :=
  if jsEqNum leftCrop (some 0) && jsEqNum rightCrop (some 0) &&
      jsEqNum topCrop (some 0) && jsEqNum bottomCrop (some 0) then ""
  else
    match fileInfo.resolution with
    | some (originalWidth, originalHeight) =>
      let outputWidth := jsSub (jsSub (some originalWidth) leftCrop) rightCrop
      let outputHeight := jsSub (jsSub (some originalHeight) topCrop) bottomCrop
      "crop=" ++ jstr outputWidth ++ ":" ++ jstr outputHeight ++ ":" ++
        jstr leftCrop ++ ":" ++ jstr topCrop
    | none =>
      let widthExpr :=
        if jsGt (jsAdd leftCrop rightCrop) (some 0) then
          "iw-" ++ jstr (jsAdd leftCrop rightCrop)
        else "iw"
      let heightExpr :=
        if jsGt (jsAdd topCrop bottomCrop) (some 0) then
          "ih-" ++ jstr (jsAdd topCrop bottomCrop)
        else "ih"
      "crop=" ++ widthExpr ++ ":" ++ heightExpr ++ ":" ++ jstr leftCrop ++ ":" ++
        jstr topCrop

/-- State of the processing loop of processAndReorderCommands. -/
structure BuildState where
  processedCommands : List ProcessedCommand
  videoFilters : List String
  audioFilters : List String
deriving DecidableEq

/-- One step of the processing loop.  The try/catch around each command turns
the one possible throw (buildCropFilter with a known resolution) into a
global pseudo-argument carrying the message at weight 999. -/
def processOne (fileInfo : FileInfo) (st : BuildState) (command : Command) :
    BuildState :=
  match command with
  | .Trim start stop =>
    { st with processedCommands := st.processedCommands ++
        [⟨"input", "-ss " ++ start ++ " -to " ++ stop, commandOrder "input-trim"⟩] }
  | .Crop cropSize side =>
    match buildCropFilter cropSize side fileInfo with
    | .ok cropFilter =>
      if cropFilter != "" then
        { st with videoFilters := st.videoFilters ++ [cropFilter] }
      else st
    | .error msg =>
      { st with processedCommands := st.processedCommands ++
          [⟨"global", "# Error in Crop: " ++ msg, 999⟩] }
  | .OptimizedCrop l r t b _ =>
    let optimizedFilter := buildOptimizedCropFilter l r t b fileInfo
    if optimizedFilter != "" then
      { st with videoFilters := st.videoFilters ++ [optimizedFilter] }
    else st
  | .Scale width height aspectRatio =>
    { st with videoFilters := st.videoFilters ++
        [buildScaleFilter width height aspectRatio] }
  | .TextOverlay text position _ _ =>
    { st with videoFilters := st.videoFilters ++
        [buildTextOverlayFilter text position] }
  | .Fade operation duration =>
    { st with videoFilters := st.videoFilters ++
        [buildFadeFilter operation duration] }
  | .ContentOverlay content contentType _ =>
    { st with videoFilters := st.videoFilters ++
        [buildContentOverlayFilter content contentType] }
  | .Compress bucket =>
    if bucket == "video" then
      { st with processedCommands := st.processedCommands ++
          [⟨"output", "-crf 23", commandOrder "output-codec"⟩] }
    else st
  | .Convert outputFormat =>
    { st with processedCommands := st.processedCommands ++
        [⟨"output", "-f " ++ outputFormat, commandOrder "output-format"⟩] }
  | _ => st

/-- Stable insertion of one processed argument before the first strictly
greater stage weight (the sort comparator a.order minus b.order). -/
def insertByOrder (x : ProcessedCommand) : List ProcessedCommand →
    List ProcessedCommand
  | [] => [x]
  | y :: r => if x.order < y.order then x :: y :: r else y :: insertByOrder x r

/-- Stable sort by stage weight (JavaScript Array.prototype.sort is stable). -/
def sortByOrder (l : List ProcessedCommand) : List ProcessedCommand :=
  l.foldl (fun acc x => insertByOrder x acc) []

/-- The argument-building phase of processAndReorderCommands: optimize crops,
process every node, append the combined video filter and audio filter
arguments when their lists are nonempty, and sort by stage weight. -/
def buildProcessed (commands : List Command) (fileInfo : FileInfo) :
    Except String (List ProcessedCommand) :=
  match optimizeCrops commands fileInfo with
  | .error e => .error e
  | .ok optimizedCommands =>
    let st := optimizedCommands.foldl (processOne fileInfo) ⟨[], [], []⟩
    let withVideo :=
      if !st.videoFilters.isEmpty then
        st.processedCommands ++
          [⟨"video-filter",
            "-vf \"" ++ String.intercalate "," st.videoFilters ++ "\"",
            commandOrder "video-filter"⟩]
      else st.processedCommands
    let withAudio :=
      if !st.audioFilters.isEmpty then
        withVideo ++
          [⟨"audio-filter",
            "-af \"" ++ String.intercalate "," st.audioFilters ++ "\"",
            commandOrder "audio-filter"⟩]
      else withVideo
    .ok (sortByOrder withAudio)

/-- The serialization phase of processAndReorderCommands: input-timing
arguments, the input file (with its default), then everything else. -/
def serializeArgs (l : List ProcessedCommand) (fileInfo : FileInfo) : String :=
  let inputCommands := l.filter (fun c => c.ptype == "input")
  let otherCommands := l.filter (fun c => c.ptype != "input")
  let inputArgs := String.intercalate " " (inputCommands.map (fun c => c.value))
  let outputArgs := String.intercalate " " (otherCommands.map (fun c => c.value))
  let file :=
    match fileInfo.filename with
    | some s => if s == "" then "input.mp4" else s
    | none => "input.mp4"
  jsTrimStr (inputArgs ++ " -i " ++ file ++ " " ++ outputArgs)

/-- processAndReorderCommands as composition of its two phases. -/
def processAndReorderCommands (commands : List Command) (fileInfo : FileInfo) :
    Except String String :=
  match buildProcessed commands fileInfo with
  | .error e => .error e
  | .ok l => .ok (serializeArgs l fileInfo)

/-- The translateToFfmpeg wrapper: a throw anywhere in the pipeline replaces
the entire output by a terminal error line. -/
def translateToFfmpeg (commands : List Command) (fileInfo : FileInfo) : String :=
  match processAndReorderCommands commands fileInfo with
  | .ok s => s
  | .error msg => "# Error: " ++ msg

/-! ## Legacy editor snapshot of the crop builder

The editor page carries an earlier copy of the crop builder pair.  Its
variable fallback has no zero-size branch, and with a known resolution an
invalid dimension is reported inline instead of thrown. -/

namespace EditorSnapshot

/-- buildCropFilterWithVariables of the editor snapshot: always the symbolic
iw/ih shapes, with no special case for a zero size. -/
def buildCropFilterWithVariables (cropSize side : String) : String :=
  let size := cropSizeVal cropSize
  if side == "left" then "crop=iw-" ++ jstr size ++ ":ih:" ++ jstr size ++ ":0"
  else if side == "right" then "crop=iw-" ++ jstr size ++ ":ih:0:0"
  else if side == "top" then "crop=iw:ih-" ++ jstr size ++ ":0:" ++ jstr size
  else if side == "bottom" then "crop=iw:ih-" ++ jstr size ++ ":0:0"
  else if side == "width" then
    "crop=iw-" ++ jstr (jsMul size (some 2)) ++ ":ih:" ++ jstr size ++ ":0"
  else if side == "height" then
    "crop=iw:ih-" ++ jstr (jsMul size (some 2)) ++ ":0:" ++ jstr size
  else if side == "each" then
    "crop=iw-" ++ jstr (jsMul size (some 2)) ++ ":ih-" ++
      jstr (jsMul size (some 2)) ++ ":" ++ jstr size ++ ":" ++ jstr size
  else "crop=iw-" ++ jstr size ++ ":ih:0:0"

/-- buildCropFilter of the editor snapshot: an unknown resolution falls back
to the variable builder before the zero-size test; a known resolution tests
the zero size, computes the side arithmetic, and reports invalid dimensions
as an inline message string. -/
def buildCropFilter (cropSize side : String) (fileInfo : FileInfo) : String :=
  let size := cropSizeVal cropSize
  match fileInfo.resolution with
  | none => buildCropFilterWithVariables cropSize side
  | some (videoWidth, videoHeight) =>
    if jsEqNum size (some 0) then "cropdetect=24:16:0"
    else
      let dims : JNum × JNum × JNum × JNum :=
        if side == "left" then
          (jsSub (some videoWidth) size, some videoHeight, size, some 0)
        else if side == "right" then
          (jsSub (some videoWidth) size, some videoHeight, some 0, some 0)
        else if side == "top" then
          (some videoWidth, jsSub (some videoHeight) size, some 0, size)
        else if side == "bottom" then
          (some videoWidth, jsSub (some videoHeight) size, some 0, some 0)
        else if side == "width" then
          (jsSub (some videoWidth) (jsMul size (some 2)), some videoHeight,
           size, some 0)
        else if side == "height" then
          (some videoWidth, jsSub (some videoHeight) (jsMul size (some 2)),
           some 0, size)
        else if side == "each" then
          (jsSub (some videoWidth) (jsMul size (some 2)),
           jsSub (some videoHeight) (jsMul size (some 2)), size, size)
        else (jsSub (some videoWidth) size, some videoHeight, some 0, some 0)
      let outputWidth := dims.1
      let outputHeight := dims.2.1
      let xOffset := dims.2.2.1
      let yOffset := dims.2.2.2
      if jsLe outputWidth (some 0) || jsLe outputHeight (some 0) then
        "crop=\x7bCrop operation would result in invalid dimensions: " ++
          jstr outputWidth ++ "x" ++ jstr outputHeight ++ "\x7d"
      else
        "crop=" ++ jstr outputWidth ++ ":" ++ jstr outputHeight ++ ":" ++
          jstr xOffset ++ ":" ++ jstr yOffset

end EditorSnapshot

/-! ## Standalone parser page

The parser page declares its accumulator arrays at module scope and its
component pushes into them on every render without clearing, so the arrays
persist across invocations.  The component parses a fixed module-level code
constant with a registry holding only the trim pattern, whose positions are
relative to the token after the keyword. -/

namespace ParserPage

/-- One expected-token entry of the page registry (no optional flag). -/
structure PageTokenCheck where
  position : Nat
  expected : Expected
  paramName : Option String

/-- The page registry entry shape. -/
structure PagePattern where
  name : String
  expectedTokens : List PageTokenCheck
  validate : Params → VRes
  createNode : Params → Command

/-- The page registry: only trim, with positions starting at the argument
after the keyword. -/
def commandPatterns : List PagePattern := [
  { name := "trim",
    expectedTokens := [
      ⟨0, .lit "from", none⟩,
      ⟨1, .re reAnyTest, some "start"⟩,
      ⟨2, .lit "to", none⟩,
      ⟨3, .re reAnyTest, some "end"⟩],
    validate := fun params =>
      .bool (validateTrimParams (pget params "start") (pget params "end")),
    createNode := fun params =>
      .Trim (pget params "start") (pget params "end") }]

/-- The token walk of the page validateCommandPatterns; a mismatch reports
lastIndex zero. -/
def runChecks (command : String) (checks : List PageTokenCheck)
    (args : List String) (params : Params) : Except String Params :=
  match checks with
  | [] => .ok params
  | ck :: rest =>
    let token := args.getD ck.position "undefined"
    let validated :=
      match ck.expected with
      | .re test => test token
      | .lit s => token == s
    if validated then
      runChecks command rest args
        (match ck.paramName with
         | some k => (k, token) :: params
         | none => params)
    else
      .error (command ++ ": Invalid command arguments \x7b" ++ token ++ "\x7d")

/-- validateCommandPatterns of the page (command passed separately from the
argument window). -/
def validateCommandPatterns (command : String) (args : List String) : Result :=
  match commandPatterns.find? (fun p => p.name == command) with
  | none => .failure 0 "Could not find a validator"
  | some validator =>
    match runChecks command validator.expectedTokens args [] with
    | .error msg => .failure 0 msg
    | .ok params =>
      if !(validator.validate params).truthy then
        .failure (args.length - 1)
          ("Params didn't validate: \x7b" ++ String.intercalate " " args ++ "\x7d")
      else
        .success (args.length - 1) (validator.createNode params)
          (String.intercalate " " args)

/-- The fixed module-level code constant the page parses. -/
def pageCode : String :=
  "# Example code in natural ffmpeg language\ntrim from 10 to 20\ntrim from 10:30 to 12:30\ntrim from 00:10.00 to 00:00:20.00\n"

/-- code.match(pattern) of the page. -/
def pageWords : List String :=
  tokenize pageCode

/-- One iteration of the page loop: the trim guard with its minimum length
test over the four tokens after the keyword. -/
def pageIterBody (words : List String) (i : Nat) (acc : ParserResult) :
    Nat × ParserResult :=
  if words.getD i "undefined" == "trim" && words.length > 5 then
    match validateCommandPatterns (words.getD i "undefined")
        [words.getD (i + 1) "undefined", words.getD (i + 2) "undefined",
         words.getD (i + 3) "undefined", words.getD (i + 4) "undefined"] with
    | .failure lastIndex err =>
      (i + lastIndex, { acc with errors := acc.errors ++ [err] })
    | .success lastIndex node src =>
      (i + lastIndex,
       { acc with
         commands := acc.commands ++ [node],
         parsedCommands := acc.parsedCommands ++ [src] })
  else (i, acc)

/-- The page loop with explicit fuel. -/
def pageLoop (words : List String) : Nat → Nat → ParserResult → ParserResult
  | 0, _, acc => acc
  | fuel + 1, i, acc =>
    if i < words.length then
      let st := pageIterBody words i acc
      pageLoop words fuel (st.1 + 1) st.2
    else acc

/-- One render of the page component as a transformer of the module-scope
accumulator state: the loop pushes into whatever the arrays already hold. -/
def render (st : ParserResult) : ParserResult :=
  if pageWords.isEmpty then st
  else pageLoop pageWords (pageWords.length + 1) 0 st

/-- The module-scope arrays start empty. -/
def initialState : ParserResult := ⟨[], [], []⟩

end ParserPage

/-! ## Remaining definitions used by the statements -/

/-- Shape of a well-formed token: a comment token (hash, newline-free middle,
closing newline), a quoted token (quote, quote-free middle, closing quote),
or a nonempty bare word of bare characters.  Every token the tokenizer emits
has one of these shapes. -/
def WfTok (t : List Char) : Prop :=
  (∃ mid, t = '#' :: (mid ++ ['\n']) ∧ '\n' ∉ mid) ∨
  (∃ mid, t = '"' :: (mid ++ ['"']) ∧ '"' ∉ mid) ∨
  (t ≠ [] ∧ ∀ c ∈ t, isBareChar c = true)

/-- No entry of the list is a combined video-filter or audio-filter argument. -/
def noFilterArgs (l : List ProcessedCommand) : Prop :=
  ∀ pc ∈ l, pc.ptype ≠ "video-filter" ∧ pc.ptype ≠ "audio-filter"

/-! ## Tokenizer theory -/

/-- The tail after a successful dropWhile is shorter than the input. -/
theorem length_tail_dropWhile {p : Char → Bool} {l d : List Char} {x : Char}
    (h : l.dropWhile p = x :: d) : d.length < l.length := by
  have h1 : (l.dropWhile p).length ≤ l.length := (List.dropWhile_sublist p).length_le
  rw [h] at h1
  simp only [List.length_cons] at h1
  omega

/-- Fuel irrelevance: any fuel at least the input length tokenizes alike. -/
theorem tokGo_congr : ∀ (f1 f2 : Nat) (cs : List Char),
    cs.length ≤ f1 → cs.length ≤ f2 → tokGo f1 cs = tokGo f2 cs := by
  intro f1
  induction f1 with
  | zero =>
    intro f2 cs h1 _
    have hcs : cs = [] := List.length_eq_zero.mp (Nat.le_zero.mp h1)
    subst hcs
    cases f2 <;> rfl
  | succ f ih =>
    intro f2 cs h1 h2
    cases cs with
    | nil => cases f2 <;> rfl
    | cons c rest =>
      cases f2 with
      | zero => simp at h2
      | succ g =>
        have hr1 : rest.length ≤ f := by
          simp only [List.length_cons] at h1; omega
        have hr2 : rest.length ≤ g := by
          simp only [List.length_cons] at h2; omega
        show tokGo (f + 1) (c :: rest) = tokGo (g + 1) (c :: rest)
        simp only [tokGo]
        split_ifs with hc hq hw
        · cases hd : rest.dropWhile (fun x => x ≠ '\n') with
          | nil => exact ih g rest hr1 hr2
          | cons d after =>
            have ha : after.length ≤ rest.length :=
              Nat.le_of_lt (length_tail_dropWhile hd)
            dsimp only
            rw [ih g after (le_trans ha hr1) (le_trans ha hr2)]
        · cases hd : rest.dropWhile (fun x => x ≠ '"') with
          | nil => exact ih g rest hr1 hr2
          | cons d after =>
            have ha : after.length ≤ rest.length :=
              Nat.le_of_lt (length_tail_dropWhile hd)
            dsimp only
            rw [ih g after (le_trans ha hr1) (le_trans ha hr2)]
        · exact ih g rest hr1 hr2
        · have ha : (rest.dropWhile isBareChar).length ≤ rest.length :=
            (List.dropWhile_sublist isBareChar).length_le
          rw [ih g (rest.dropWhile isBareChar) (le_trans ha hr1) (le_trans ha hr2)]

/-- tokGo with fuel equal to the input length is tokChars. -/
theorem tokGo_eq_tokChars {f : Nat} {cs : List Char} (h : cs.length ≤ f) :
    tokGo f cs = tokChars cs :=
  tokGo_congr f cs.length cs h (le_refl _)

/-- A hash with no later newline produces no token at this position; the
scan resumes one character further. -/
theorem tokChars_hash_none {rest : List Char}
    (h : rest.dropWhile (fun x => x ≠ '\n') = []) :
    tokChars ('#' :: rest) = tokChars rest := by
  show tokGo ('#' :: rest).length ('#' :: rest) = tokChars rest
  simp only [List.length_cons, tokGo, if_pos rfl, if_true, h]
  exact tokGo_eq_tokChars (le_refl _)

/-- A hash with a later newline produces a comment token reaching through
that newline. -/
theorem tokChars_hash_some {rest : List Char} {d : Char} {after : List Char}
    (h : rest.dropWhile (fun x => x ≠ '\n') = d :: after) :
    tokChars ('#' :: rest) =
      ('#' :: (rest.takeWhile (fun x => x ≠ '\n') ++ ['\n'])) :: tokChars after := by
  show tokGo ('#' :: rest).length ('#' :: rest) = _
  simp only [List.length_cons, tokGo, if_pos rfl, if_true, List.cons_append, h]
  have ha : after.length ≤ rest.length := Nat.le_of_lt (length_tail_dropWhile h)
  rw [tokGo_eq_tokChars ha]

/-- A quote with no later quote produces no token at this position. -/
theorem tokChars_quote_none {rest : List Char}
    (h : rest.dropWhile (fun x => x ≠ '"') = []) :
    tokChars ('"' :: rest) = tokChars rest := by
  show tokGo ('"' :: rest).length ('"' :: rest) = tokChars rest
  simp only [List.length_cons, tokGo, if_neg (by decide : ¬('"' = '#')), if_pos rfl,
    if_true, h]
  exact tokGo_eq_tokChars (le_refl _)

/-- A quote with a later quote produces a quoted token through that quote. -/
theorem tokChars_quote_some {rest : List Char} {d : Char} {after : List Char}
    (h : rest.dropWhile (fun x => x ≠ '"') = d :: after) :
    tokChars ('"' :: rest) =
      ('"' :: (rest.takeWhile (fun x => x ≠ '"') ++ ['"'])) :: tokChars after := by
  show tokGo ('"' :: rest).length ('"' :: rest) = _
  simp only [List.length_cons, tokGo, if_neg (by decide : ¬('"' = '#')), if_pos rfl,
    if_true, List.cons_append, h]
  have ha : after.length ≤ rest.length := Nat.le_of_lt (length_tail_dropWhile h)
  rw [tokGo_eq_tokChars ha]

/-- A whitespace character is skipped. -/
theorem tokChars_ws {c : Char} {rest : List Char} (h : isJsWhitespace c = true) :
    tokChars (c :: rest) = tokChars rest := by
  have hc : c ≠ '#' := by
    intro e; rw [e] at h; exact absurd h (by decide)
  have hq : c ≠ '"' := by
    intro e; rw [e] at h; exact absurd h (by decide)
  show tokGo (c :: rest).length (c :: rest) = tokChars rest
  simp only [List.length_cons, tokGo, if_neg hc, if_neg hq, if_pos h]
  exact tokGo_eq_tokChars (le_refl _)

/-- A bare character starts a maximal bare-word token. -/
theorem tokChars_bare_step {c : Char} {rest : List Char} (hc : c ≠ '#')
    (hq : c ≠ '"') (hw : isJsWhitespace c = false) :
    tokChars (c :: rest) =
      (c :: rest.takeWhile isBareChar) :: tokChars (rest.dropWhile isBareChar) := by
  show tokGo (c :: rest).length (c :: rest) = _
  simp only [List.length_cons, tokGo, if_neg hc, if_neg hq, hw, if_neg Bool.false_ne_true]
  have ha : (rest.dropWhile isBareChar).length ≤ rest.length :=
    (List.dropWhile_sublist isBareChar).length_le
  rw [tokGo_eq_tokChars ha]

/-- A well-formed comment token followed by anything re-lexes as itself. -/
theorem tokChars_comment_prepend {mid cs : List Char} (h : '\n' ∉ mid) :
    tokChars (('#' :: (mid ++ ['\n'])) ++ cs) =
      ('#' :: (mid ++ ['\n'])) :: tokChars cs := by
  have hall : ∀ a ∈ mid, (fun x => decide (x ≠ '\n')) a = true := by
    intro a ha
    simp only [decide_eq_true_eq]
    intro heq
    exact h (heq ▸ ha)
  have harr : ('#' :: (mid ++ ['\n'])) ++ cs = '#' :: (mid ++ '\n' :: cs) := by
    simp
  rw [harr]
  have hd : (mid ++ '\n' :: cs).dropWhile (fun x => x ≠ '\n') = '\n' :: cs := by
    rw [List.dropWhile_append_of_pos hall]
    simp [List.dropWhile]
  have ht : (mid ++ '\n' :: cs).takeWhile (fun x => x ≠ '\n') = mid := by
    rw [List.takeWhile_append_of_pos hall]
    simp [List.takeWhile]
  rw [tokChars_hash_some hd, ht]

/-- A well-formed quoted token followed by anything re-lexes as itself. -/
theorem tokChars_quoted_prepend {mid cs : List Char} (h : '"' ∉ mid) :
    tokChars (('"' :: (mid ++ ['"'])) ++ cs) =
      ('"' :: (mid ++ ['"'])) :: tokChars cs := by
  have hall : ∀ a ∈ mid, (fun x => decide (x ≠ '"')) a = true := by
    intro a ha
    simp only [decide_eq_true_eq]
    intro heq
    exact h (heq ▸ ha)
  have harr : ('"' :: (mid ++ ['"'])) ++ cs = '"' :: (mid ++ '"' :: cs) := by
    simp
  rw [harr]
  have hd : (mid ++ '"' :: cs).dropWhile (fun x => x ≠ '"') = '"' :: cs := by
    rw [List.dropWhile_append_of_pos hall]
    simp [List.dropWhile]
  have ht : (mid ++ '"' :: cs).takeWhile (fun x => x ≠ '"') = mid := by
    rw [List.takeWhile_append_of_pos hall]
    simp [List.takeWhile]
  rw [tokChars_quote_some hd, ht]

/-- A bare character is neither hash, quote nor whitespace. -/
theorem isBareChar_elim {c : Char} (h : isBareChar c = true) :
    c ≠ '#' ∧ c ≠ '"' ∧ isJsWhitespace c = false := by
  simp only [isBareChar, Bool.and_eq_true, Bool.not_eq_true', decide_eq_true_eq] at h
  tauto

/-- A well-formed bare token alone re-lexes as itself. -/
theorem tokChars_bare_single {t : List Char} (hne : t ≠ [])
    (hall : ∀ c ∈ t, isBareChar c = true) : tokChars t = [t] := by
  cases t with
  | nil => exact absurd rfl hne
  | cons c rest =>
    obtain ⟨hc, hq, hw⟩ := isBareChar_elim (hall c (by simp))
    rw [tokChars_bare_step hc hq hw]
    have hr : ∀ a ∈ rest, isBareChar a = true := fun a ha => hall a (by simp [ha])
    rw [List.takeWhile_eq_self_iff.mpr hr, List.dropWhile_eq_nil_iff.mpr hr]
    rfl

/-- A well-formed bare token followed by a space and anything re-lexes as
itself followed by the rest. -/
theorem tokChars_bare_prepend {t cs : List Char} (hne : t ≠ [])
    (hall : ∀ c ∈ t, isBareChar c = true) :
    tokChars (t ++ ' ' :: cs) = t :: tokChars cs := by
  cases t with
  | nil => exact absurd rfl hne
  | cons c rest =>
    obtain ⟨hc, hq, hw⟩ := isBareChar_elim (hall c (by simp))
    have hr : ∀ a ∈ rest, isBareChar a = true := fun a ha => hall a (by simp [ha])
    rw [List.cons_append, tokChars_bare_step hc hq hw]
    have ht : (rest ++ ' ' :: cs).takeWhile isBareChar = rest := by
      rw [List.takeWhile_append_of_pos hr]
      simp [List.takeWhile, isBareChar, isJsWhitespace]
    have hd : (rest ++ ' ' :: cs).dropWhile isBareChar = ' ' :: cs := by
      rw [List.dropWhile_append_of_pos hr]
      simp [List.dropWhile, isBareChar, isJsWhitespace]
    rw [ht, hd, tokChars_ws (by decide)]

/-- Joining well-formed tokens with single spaces and re-tokenizing gives the
same token sequence back. -/
theorem tokChars_joinSpace : ∀ (ts : List (List Char)),
    (∀ t ∈ ts, WfTok t) → tokChars (joinSpace ts) = ts := by
  intro ts
  induction ts with
  | nil => intro _; rfl
  | cons t rest ih =>
    intro h
    cases rest with
    | nil =>
      show tokChars t = [t]
      rcases h t (by simp) with ⟨mid, rfl, hm⟩ | ⟨mid, rfl, hm⟩ | ⟨hne, hall⟩
      · have h2 : tokChars (('#' :: (mid ++ ['\n'])) ++ ([] : List Char)) =
            ('#' :: (mid ++ ['\n'])) :: tokChars ([] : List Char) :=
          tokChars_comment_prepend hm
        simpa using h2
      · have h2 : tokChars (('"' :: (mid ++ ['"'])) ++ ([] : List Char)) =
            ('"' :: (mid ++ ['"'])) :: tokChars ([] : List Char) :=
          tokChars_quoted_prepend hm
        simpa using h2
      · exact tokChars_bare_single hne hall
    | cons t2 rest2 =>
      show tokChars (t ++ ' ' :: joinSpace (t2 :: rest2)) = t :: (t2 :: rest2)
      have hrest : tokChars (joinSpace (t2 :: rest2)) = t2 :: rest2 :=
        ih (fun u hu => h u (by simp [hu]))
      rcases h t (by simp) with ⟨mid, rfl, hm⟩ | ⟨mid, rfl, hm⟩ | ⟨hne, hall⟩
      · rw [tokChars_comment_prepend hm, tokChars_ws (by decide), hrest]
      · rw [tokChars_quoted_prepend hm, tokChars_ws (by decide), hrest]
      · rw [tokChars_bare_prepend hne hall, hrest]

/-- Every token the tokenizer emits is well formed. -/
theorem tokGo_wf : ∀ (f : Nat) (cs : List Char) (t : List Char),
    t ∈ tokGo f cs → WfTok t := by
  intro f
  induction f with
  | zero => intro cs t ht; simp [tokGo] at ht
  | succ f ih =>
    intro cs t ht
    cases cs with
    | nil => simp [tokGo] at ht
    | cons c rest =>
      simp only [tokGo] at ht
      by_cases hc : c = '#'
      · rw [if_pos hc] at ht
        cases hd : rest.dropWhile (fun x => x ≠ '\n') with
        | nil => rw [hd] at ht; exact ih rest t ht
        | cons d after =>
          rw [hd] at ht
          rcases List.mem_cons.mp ht with rfl | hmem
          · left
            refine ⟨rest.takeWhile (fun x => x ≠ '\n'), by simp [hc], ?_⟩
            intro hmm
            have := List.mem_takeWhile_imp hmm
            simp at this
          · exact ih after t hmem
      · rw [if_neg hc] at ht
        by_cases hq : c = '"'
        · rw [if_pos hq] at ht
          cases hd : rest.dropWhile (fun x => x ≠ '"') with
          | nil => rw [hd] at ht; exact ih rest t ht
          | cons d after =>
            rw [hd] at ht
            rcases List.mem_cons.mp ht with rfl | hmem
            · right; left
              refine ⟨rest.takeWhile (fun x => x ≠ '"'), by simp [hq], ?_⟩
              intro hmm
              have := List.mem_takeWhile_imp hmm
              simp at this
            · exact ih after t hmem
        · rw [if_neg hq] at ht
          by_cases hw : isJsWhitespace c
          · rw [if_pos hw] at ht
            exact ih rest t ht
          · rw [if_neg hw] at ht
            rcases List.mem_cons.mp ht with rfl | hmem
            · right; right
              refine ⟨by simp, ?_⟩
              intro a ha
              rcases List.mem_cons.mp ha with rfl | hmem2
              · simp only [isBareChar, Bool.and_eq_true, Bool.not_eq_true',
                  decide_eq_true_eq]
                refine ⟨⟨?_, hq⟩, hc⟩
                exact Bool.not_eq_true _ ▸ (Bool.eq_false_iff.mpr hw)
              · exact List.mem_takeWhile_imp hmem2
            · exact ih (rest.dropWhile isBareChar) t hmem

/-- Every token of a tokenization is well formed. -/
theorem tokChars_wf {cs : List Char} {t : List Char} (h : t ∈ tokChars cs) :
    WfTok t :=
  tokGo_wf cs.length cs t h

/-! ## Claim theorems -/

/-- C9: for any token window of any input (in particular the matched window
of any successfully parsed directive, which is a slice of the token list),
joining the window with single spaces and re-tokenizing reproduces exactly
the same token sequence. -/
theorem tokenizer_window_roundtrip (input : String) (i n : Nat) :
    tokChars (joinSpace (((tokChars input.data).drop i).take n)) =
      ((tokChars input.data).drop i).take n := by
  apply tokChars_joinSpace
  intro t ht
  have h1 : t ∈ (tokChars input.data).drop i := List.mem_of_mem_take ht
  have h2 : t ∈ tokChars input.data := List.mem_of_mem_drop h1
  exact tokChars_wf h2

/-- Witness for the round-trip theorem at a concrete directive. -/
theorem tokenizer_window_roundtrip_witness :
    tokChars (joinSpace (((tokChars "crop 100px from left".data).drop 0).take 4)) =
      ((tokChars "crop 100px from left".data).drop 0).take 4 :=
  tokenizer_window_roundtrip "crop 100px from left" 0 4

/-- C10: a hash with no following newline produces no comment token — the
hash is skipped and scanning resumes right after it, so the following words
become ordinary bare tokens; concretely, a trailing unterminated comment
yields no Comment node and no error, and its words are parsed as ordinary
tokens (here, ignored bare words). -/
theorem unterminated_comment_dropped :
    (∀ rest : List Char, '\n' ∉ rest → tokChars ('#' :: rest) = tokChars rest) ∧
    parser "compress video # pending approval" =
      ⟨[], [.Compress "video"], ["compress video"]⟩ := by
  constructor
  · intro rest h
    apply tokChars_hash_none
    rw [List.dropWhile_eq_nil_iff]
    intro a ha
    simp only [decide_eq_true_eq]
    exact fun heq => h (heq ▸ ha)
  · rfl

/-- Witness for the unterminated-comment theorem at a concrete tail. -/
theorem unterminated_comment_dropped_witness :
    tokChars ('#' :: " final words".data) = tokChars " final words".data :=
  unterminated_comment_dropped.1 " final words".data (by decide)

/-- C1: the remove_frames cycle bounds are not enforced by the pipeline.  The
validator returns the message string Invalid cycle for an out-of-range cycle,
but the caller only tests the returned value for JavaScript truthiness, and a
nonempty string is truthy; so cycles 1 and 31 produce a Deduplicate node and
no error, while a non-numeric cycle still fails at the token pattern. -/
theorem removeFrames_cycle_bounds_unenforced :
    parser "remove_frames every 1" =
      ⟨[], [.Deduplicate (some 1)], ["remove_frames every 1"]⟩ ∧
    parser "remove_frames every 31" =
      ⟨[], [.Deduplicate (some 31)], ["remove_frames every 31"]⟩ ∧
    parser "remove_frames every abc" =
      ⟨["remove_frames: Invalid command arguments \x7babc\x7d"], [], []⟩ := by
  exact ⟨rfl, rfl, rfl⟩

set_option maxRecDepth 40000 in
/-- C2: only the first semicolon of the whole input is replaced by a space
(String.prototype.replace with a plain-string pattern), so three directives
separated by two semicolons do not parse like the newline-separated form:
the second semicolon stays inside a bare token, one directive is lost and an
error is reported instead. -/
theorem semicolon_only_first_replaced :
    parser "remove_frames every 2;remove_frames every 2;remove_frames every 2" =
      ⟨["remove_frames: Invalid command arguments \x7b2;remove_frames\x7d"],
       [.Deduplicate (some 2)], ["remove_frames every 2"]⟩ ∧
    parser "remove_frames every 2\nremove_frames every 2\nremove_frames every 2" =
      ⟨[], [.Deduplicate (some 2), .Deduplicate (some 2), .Deduplicate (some 2)],
       ["remove_frames every 2", "remove_frames every 2", "remove_frames every 2"]⟩ ∧
    parser "remove_frames every 2;remove_frames every 2;remove_frames every 2" ≠
      parser "remove_frames every 2\nremove_frames every 2\nremove_frames every 2" := by
  refine ⟨rfl, rfl, ?_⟩
  decide

set_option maxRecDepth 80000 in
/-- C8: the standalone parser page keeps its accumulator arrays at module
scope, so a second render of the component on the same fixed directive text
appends to the results of the first instead of reproducing them: the first
render yields three Trim nodes, the second yields six. -/
theorem page_parser_state_leakage :
    (ParserPage.render ParserPage.initialState).commands =
      [.Trim "10" "20", .Trim "10:30" "12:30", .Trim "00:10.00" "00:00:20.00"] ∧
    (ParserPage.render (ParserPage.render ParserPage.initialState)).commands =
      [.Trim "10" "20", .Trim "10:30" "12:30", .Trim "00:10.00" "00:00:20.00",
       .Trim "10" "20", .Trim "10:30" "12:30", .Trim "00:10.00" "00:00:20.00"] ∧
    ParserPage.render (ParserPage.render ParserPage.initialState) ≠
      ParserPage.render ParserPage.initialState := by
  refine ⟨rfl, rfl, ?_⟩
  decide

set_option maxRecDepth 40000 in
/-- C5: a trim directive is accepted exactly when both time strings pass
validateFormat (the time pattern with its seconds, minutes and hours bounds)
and the end converts to strictly more total seconds than the start; in
particular the directives with end 5 and end 10 after start 10 both fail with
one semantic error and produce no Trim node. -/
theorem trim_acceptance_iff :
    (∀ start stop : String, validateTrimParams start stop = true ↔
      (validateFormat start = true ∧ validateFormat stop = true ∧
        jsLtDec (convertToSeconds start) (convertToSeconds stop) = true)) ∧
    parser "trim from 10 to 5" =
      ⟨["Params didn't validate: \x7btrim from 10 to 5\x7d"], [], []⟩ ∧
    parser "trim from 10 to 10" =
      ⟨["Params didn't validate: \x7btrim from 10 to 10\x7d"], [], []⟩ := by
  refine ⟨?_, rfl, rfl⟩
  intro start stop
  by_cases h1 : validateFormat start = true
  · by_cases h2 : validateFormat stop = true
    · simp [validateTrimParams, h1, h2]
    · simp [validateTrimParams, h1, h2]
  · simp [validateTrimParams, h1]

/-- Witness for the trim acceptance theorem at an accepted directive. -/
theorem trim_acceptance_iff_witness : validateTrimParams "10" "20" = true :=
  (trim_acceptance_iff.1 "10" "20").mpr ⟨by decide, by decide, by decide⟩

/-- C6 counterexample: in the legacy editor snapshot of the crop builder, a
zero-size crop on each with an unknown resolution does not emit the
automatic-border-detection filter: the unknown-resolution fallback runs
before the zero-size test and has no such branch. -/
theorem cropdetect_zero_each_counterexample :
    EditorSnapshot.buildCropFilter "0px" "each" ⟨none, none⟩ = "crop=iw-0:ih-0:0:0" ∧
    EditorSnapshot.buildCropFilter "0px" "each" ⟨none, none⟩ ≠ "cropdetect=24:16:0" := by
  exact ⟨rfl, by decide⟩

/-- C6 amended: the compiler module's crop builder emits the automatic
border-detection filter for a zero size on each with and without a known
resolution; the legacy editor snapshot does so only when the resolution is
known, and emits the symbolic degenerate crop otherwise. -/
theorem cropdetect_zero_each_amended :
    (∀ fi : FileInfo, buildCropFilter "0px" "each" fi = .ok "cropdetect=24:16:0") ∧
    (∀ (w h : Int) (fname : Option String),
      EditorSnapshot.buildCropFilter "0px" "each" ⟨fname, some (w, h)⟩ =
        "cropdetect=24:16:0") ∧
    (∀ fname : Option String,
      EditorSnapshot.buildCropFilter "0px" "each" ⟨fname, none⟩ =
        "crop=iw-0:ih-0:0:0") := by
  refine ⟨?_, ?_, ?_⟩
  · intro fi
    rcases fi with ⟨fname, res⟩
    rcases res with _ | ⟨w, h⟩ <;> rfl
  · intro w h fname
    rfl
  · intro fname
    rfl

/-- Witness for the amended zero-size crop theorem at a concrete descriptor. -/
theorem cropdetect_zero_each_amended_witness :
    buildCropFilter "0px" "each" ⟨some "clip.mp4", some (640, 480)⟩ =
      .ok "cropdetect=24:16:0" :=
  cropdetect_zero_each_amended.1 ⟨some "clip.mp4", some (640, 480)⟩

/-- With two or more accumulated crops totalling 150 horizontal pixels and
none vertical, the optimized node is built whenever the height is positive. -/
theorem createOptimizedCrop_150 (hgt : Int) (fname : Option String)
    (hge : jsGe (some 0) (some hgt) = false) :
    createOptimizedCropCommand ⟨some 100, some 50, some 0, some 0⟩
      ⟨fname, some (1920, hgt)⟩ =
    .ok (.OptimizedCrop (some 100) (some 50) (some 0) (some 0) true) := by
  unfold createOptimizedCropCommand
  dsimp only
  rw [if_neg (by decide)]
  rw [show jsAdd (some 0) (some 0) = (some 0 : JNum) from rfl, hge]
  simp

/-- The optimizer on the two claim crops followed by crop-free nodes. -/
theorem optimizeCrops_two_crops (hgt : Int) (fname : Option String)
    (rest2 : List Command) (hge : jsGe (some 0) (some hgt) = false)
    (hr2 : ∀ c ∈ rest2, isCropCmd c = false) :
    optimizeCrops ([.Crop "100px" "left", .Crop "50px" "right"] ++ rest2)
      ⟨fname, some (1920, hgt)⟩ =
    .ok (.OptimizedCrop (some 100) (some 50) (some 0) (some 0) true :: rest2) := by
  have hfc : rest2.filter isCropCmd = [] := by
    rw [List.filter_eq_nil_iff]
    intro a ha
    simp [hr2 a ha]
  have hfo : rest2.filter (fun c => !(isCropCmd c)) = rest2 := by
    rw [List.filter_eq_self]
    intro a ha
    simp [hr2 a ha]
  unfold optimizeCrops
  rw [List.filter_append, List.filter_append, hfc, hfo]
  rw [show List.filter isCropCmd [Command.Crop "100px" "left", Command.Crop "50px" "right"]
      = [Command.Crop "100px" "left", Command.Crop "50px" "right"] from rfl]
  rw [show List.filter (fun c => !(isCropCmd c))
      [Command.Crop "100px" "left", Command.Crop "50px" "right"] = [] from rfl]
  simp only [List.append_nil, List.nil_append]
  rw [if_neg (by decide)]
  rw [show accumulateCrops [Command.Crop "100px" "left", Command.Crop "50px" "right"]
      = ⟨some 100, some 50, some 0, some 0⟩ from rfl]
  rw [createOptimizedCrop_150 hgt fname hge]

/-- The optimized filter string of the claim scenario. -/
theorem optCropFilter_1770 (hgt : Int) (fname : Option String) :
    buildOptimizedCropFilter (some 100) (some 50) (some 0) (some 0)
      ⟨fname, some (1920, hgt)⟩ = "crop=1770:" ++ toString hgt ++ ":100:0" := by
  unfold buildOptimizedCropFilter
  rw [if_neg (by decide)]
  dsimp only
  rw [show jsSub (jsSub (some 1920) (some 100)) (some 50) = (some 1770 : JNum) from by decide]
  rw [show jsSub (jsSub (some hgt) (some 0)) (some 0) = (some hgt : JNum) from by
    simp [jsSub]]
  rw [show jstr (some 1770) = "1770" from by decide]
  rw [show jstr (some 100) = "100" from by decide]
  rw [show jstr (some 0) = "0" from by decide]
  rw [show jstr (some hgt) = toString hgt from rfl]
  rw [show ("crop=" ++ "1770" ++ ":" : String) = "crop=1770:" from by decide]
  simp only [String.append_assoc]
  rw [show (":" ++ ("100" ++ (":" ++ "0")) : String) = ":100:0" from by decide]

/-- The processing loop on an OptimizedCrop node with a nonempty filter. -/
theorem processOne_optcrop (fi : FileInfo) (st : BuildState)
    (l r t b : JNum) (h : buildOptimizedCropFilter l r t b fi ≠ "") :
    processOne fi st (.OptimizedCrop l r t b true) =
      { st with videoFilters :=
          st.videoFilters ++ [buildOptimizedCropFilter l r t b fi] } := by
  unfold processOne
  dsimp only
  rw [if_pos (bne_iff_ne.mpr h)]

/-- C3: for the directives crop 100px from left then crop 50px from right
with a known resolution of 1920 by a positive height, the optimizer replaces
both Crop nodes with exactly one OptimizedCrop node carrying the four totals,
prepended to the remaining non-crop nodes, and the compiled output holds a
single video-filter argument whose value is the one consolidated crop
(width 1920 minus 150, x offset 100). -/
theorem optimizer_single_crop_filter :
    ∀ (hgt : Int) (fname : Option String) (rest : List Command),
      0 < hgt → (∀ c ∈ rest, isCropCmd c = false) →
      (optimizeCrops ([.Crop "100px" "left", .Crop "50px" "right"] ++ rest)
          ⟨fname, some (1920, hgt)⟩ =
        .ok (.OptimizedCrop (some 100) (some 50) (some 0) (some 0) true :: rest)) ∧
      (buildProcessed [.Crop "100px" "left", .Crop "50px" "right"]
          ⟨fname, some (1920, hgt)⟩ =
        .ok [⟨"video-filter", "-vf \"crop=1770:" ++ toString hgt ++ ":100:0\"", 30⟩]) := by
  intro hgt fname rest hpos hrest
  have hge : jsGe (some 0) (some hgt) = false := by
    simp [jsGe]; omega
  refine ⟨optimizeCrops_two_crops hgt fname rest hge hrest, ?_⟩
  have hne : ("crop=1770:" ++ toString hgt ++ ":100:0") ≠ "" := by
    intro e
    have h2 := congrArg String.length e
    rw [String.length_append, String.length_append] at h2
    rw [show "crop=1770:".length = 10 from by decide,
        show ":100:0".length = 6 from by decide,
        show "".length = 0 from by decide] at h2
    omega
  unfold buildProcessed
  rw [show ([Command.Crop "100px" "left", Command.Crop "50px" "right"] : List Command)
      = [Command.Crop "100px" "left", Command.Crop "50px" "right"] ++ [] from by simp]
  rw [optimizeCrops_two_crops hgt fname [] hge (by simp)]
  dsimp only
  rw [show List.foldl (processOne ⟨fname, some (1920, hgt)⟩) ⟨[], [], []⟩
        [Command.OptimizedCrop (some 100) (some 50) (some 0) (some 0) true]
      = processOne ⟨fname, some (1920, hgt)⟩ ⟨[], [], []⟩
          (Command.OptimizedCrop (some 100) (some 50) (some 0) (some 0) true) from rfl]
  rw [processOne_optcrop _ _ _ _ _ _ (by rw [optCropFilter_1770 hgt fname]; exact hne)]
  rw [optCropFilter_1770 hgt fname]
  dsimp only
  simp only [List.isEmpty_cons, List.isEmpty_nil, Bool.not_true, Bool.not_false,
    Bool.false_eq_true, if_false, if_true, List.nil_append]
  rw [show String.intercalate "," ["crop=1770:" ++ toString hgt ++ ":100:0"]
      = "crop=1770:" ++ toString hgt ++ ":100:0" from rfl]
  rw [show commandOrder "video-filter" = 30 from by decide]
  simp only [sortByOrder, List.foldl, insertByOrder]
  simp only [String.append_assoc]
  rw [show (":100:0" ++ "\"" : String) = ":100:0\"" from by decide]
  rw [← String.append_assoc]
  rw [show ("-vf \"" ++ "crop=1770:" : String) = "-vf \"crop=1770:" from by decide]

/-- Witness for the optimizer claim at height 1080 with no trailing nodes. -/
theorem optimizer_single_crop_filter_witness :
    (optimizeCrops ([.Crop "100px" "left", .Crop "50px" "right"] ++ [])
        ⟨none, some (1920, 1080)⟩ =
      .ok (.OptimizedCrop (some 100) (some 50) (some 0) (some 0) true :: [])) ∧
    (buildProcessed [.Crop "100px" "left", .Crop "50px" "right"]
        ⟨none, some (1920, 1080)⟩ =
      .ok [⟨"video-filter", "-vf \"crop=1770:" ++ toString (1080 : Int) ++ ":100:0\"", 30⟩]) :=
  optimizer_single_crop_filter 1080 none [] (by decide) (by simp)

/-- C4: whenever at least two crop directives accumulate totals whose
horizontal sum reaches the known width (or, failing that, whose vertical sum
reaches the known height), the whole compilation collapses to a single
terminal error line naming the offending total and the known dimension; no
partial argument string survives. -/
theorem crop_overflow_fatal_error :
    ∀ (cmds : List Command) (fname : Option String) (w h : Int),
      2 ≤ (cmds.filter isCropCmd).length →
      (jsGe (jsAdd (accumulateCrops (cmds.filter isCropCmd)).leftCrop
          (accumulateCrops (cmds.filter isCropCmd)).rightCrop) (some w) = true →
        translateToFfmpeg cmds ⟨fname, some (w, h)⟩ =
          "# Error: Total width crop (" ++
            jstr (jsAdd (accumulateCrops (cmds.filter isCropCmd)).leftCrop
              (accumulateCrops (cmds.filter isCropCmd)).rightCrop) ++
            "px) exceeds video width (" ++ toString w ++ "px)") ∧
      (jsGe (jsAdd (accumulateCrops (cmds.filter isCropCmd)).leftCrop
          (accumulateCrops (cmds.filter isCropCmd)).rightCrop) (some w) = false →
       jsGe (jsAdd (accumulateCrops (cmds.filter isCropCmd)).topCrop
          (accumulateCrops (cmds.filter isCropCmd)).bottomCrop) (some h) = true →
        translateToFfmpeg cmds ⟨fname, some (w, h)⟩ =
          "# Error: Total height crop (" ++
            jstr (jsAdd (accumulateCrops (cmds.filter isCropCmd)).topCrop
              (accumulateCrops (cmds.filter isCropCmd)).bottomCrop) ++
            "px) exceeds video height (" ++ toString h ++ "px)") := by
  intro cmds fname w h hlen
  have hnotle : ¬((cmds.filter isCropCmd).length ≤ 1) := by omega
  constructor
  · intro hw
    unfold translateToFfmpeg processAndReorderCommands buildProcessed optimizeCrops
    rw [if_neg hnotle]
    unfold createOptimizedCropCommand
    dsimp only
    rw [if_pos hw]
    dsimp only
    simp only [String.append_assoc]
    rw [← String.append_assoc]
    rw [show ("# Error: " ++ "Total width crop (" : String)
        = "# Error: Total width crop (" from by decide]
  · intro hwf hh
    unfold translateToFfmpeg processAndReorderCommands buildProcessed optimizeCrops
    rw [if_neg hnotle]
    unfold createOptimizedCropCommand
    dsimp only
    rw [if_neg (by rw [hwf]; exact Bool.false_ne_true), if_pos hh]
    dsimp only
    simp only [String.append_assoc]
    rw [← String.append_assoc]
    rw [show ("# Error: " ++ "Total height crop (" : String)
        = "# Error: Total height crop (" from by decide]

/-- Witness for the overflow claim: two 1000-pixel left crops against a
1920 by 1080 descriptor. -/
theorem crop_overflow_fatal_error_witness :
    translateToFfmpeg [.Crop "1000px" "left", .Crop "1000px" "left"]
      ⟨none, some (1920, 1080)⟩ =
    "# Error: Total width crop (" ++
      jstr (jsAdd (accumulateCrops
        (List.filter isCropCmd
          [.Crop "1000px" "left", .Crop "1000px" "left"])).leftCrop
        (accumulateCrops
          (List.filter isCropCmd
            [.Crop "1000px" "left", .Crop "1000px" "left"])).rightCrop) ++
      "px) exceeds video width (" ++ toString (1920 : Int) ++ "px)" :=
  (crop_overflow_fatal_error [.Crop "1000px" "left", .Crop "1000px" "left"]
    none 1920 1080 (by decide)).1 (by decide)

/-- One processing step never pushes a combined filter argument: those are
appended only after the loop. -/
theorem processOne_no_new (fi : FileInfo) (st : BuildState) (cmd : Command)
    (h : noFilterArgs st.processedCommands) :
    noFilterArgs (processOne fi st cmd).processedCommands := by
  intro pc hpc
  cases cmd <;> dsimp only [processOne] at hpc <;> repeat' split at hpc
  all_goals
    first
    | exact h pc hpc
    | (rcases List.mem_append.mp hpc with hm | hm
       · exact h pc hm
       · simp only [List.mem_singleton] at hm
         subst hm
         constructor <;> simp)

/-- The whole processing loop never pushes a combined filter argument. -/
theorem foldl_no_new (fi : FileInfo) :
    ∀ (cmds : List Command) (st : BuildState),
      noFilterArgs st.processedCommands →
      noFilterArgs ((cmds.foldl (processOne fi) st).processedCommands) := by
  intro cmds
  induction cmds with
  | nil => intro st h; exact h
  | cons c rest ih =>
    intro st h
    exact ih (processOne fi st c) (processOne_no_new fi st c h)

/-- Stable insertion adds exactly the count of the inserted element. -/
theorem countP_insertByOrder (p : ProcessedCommand → Bool) (x : ProcessedCommand) :
    ∀ l : List ProcessedCommand,
      (insertByOrder x l).countP p = l.countP p + if p x then 1 else 0 := by
  intro l
  induction l with
  | nil =>
    rw [show insertByOrder x [] = [x] from rfl]
    rw [List.countP_cons]
  | cons y r ih =>
    unfold insertByOrder
    by_cases hc : x.order < y.order
    · rw [if_pos hc]
      rw [List.countP_cons, List.countP_cons]
    · rw [if_neg hc]
      rw [List.countP_cons, ih, List.countP_cons]
      by_cases hx : p x <;> by_cases hy : p y <;> simp [hx, hy]

/-- The stage-weight sort preserves counts. -/
theorem countP_sortByOrder (p : ProcessedCommand → Bool) :
    ∀ (l : List ProcessedCommand) (acc : List ProcessedCommand),
      (l.foldl (fun a x => insertByOrder x a) acc).countP p =
        acc.countP p + l.countP p := by
  intro l
  induction l with
  | nil => intro acc; simp
  | cons x r ih =>
    intro acc
    rw [List.foldl_cons, ih, countP_insertByOrder, List.countP_cons]
    by_cases hx : p x <;> simp [hx] <;> omega

/-- C7: every successful compile carries at most one combined video-filter
argument and at most one combined audio-filter argument in its processed
argument list. -/
theorem assembler_single_vf_af :
    ∀ (cmds : List Command) (fi : FileInfo) (l : List ProcessedCommand),
      buildProcessed cmds fi = .ok l →
      l.countP (fun pc => pc.ptype == "video-filter") ≤ 1 ∧
      l.countP (fun pc => pc.ptype == "audio-filter") ≤ 1 := by
  intro cmds fi l h
  unfold buildProcessed at h
  cases hopt : optimizeCrops cmds fi with
  | error e =>
    rw [hopt] at h
    simp at h
  | ok opt =>
    rw [hopt] at h
    dsimp only at h
    injection h with h2
    subst h2
    have hno : noFilterArgs ((opt.foldl (processOne fi) ⟨[], [], []⟩).processedCommands) :=
      foldl_no_new fi opt ⟨[], [], []⟩ (by intro pc hpc; simp at hpc)
    have hvf0 : ((opt.foldl (processOne fi) ⟨[], [], []⟩).processedCommands).countP
        (fun pc => pc.ptype == "video-filter") = 0 := by
      rw [List.countP_eq_zero]
      intro pc hpc
      simpa using (hno pc hpc).1
    have haf0 : ((opt.foldl (processOne fi) ⟨[], [], []⟩).processedCommands).countP
        (fun pc => pc.ptype == "audio-filter") = 0 := by
      rw [List.countP_eq_zero]
      intro pc hpc
      simpa using (hno pc hpc).2
    rw [show sortByOrder = fun l => l.foldl (fun a x => insertByOrder x a) [] from rfl]
    dsimp only
    rw [countP_sortByOrder, countP_sortByOrder]
    constructor
    · split_ifs with h1 h2 h3 <;>
        simp only [List.countP_append, List.countP_cons, List.countP_nil, hvf0] <;>
        simp
    · split_ifs with h1 h2 h3 <;>
        simp only [List.countP_append, List.countP_cons, List.countP_nil, haf0] <;>
        simp

/-- Witness for the single-filter-argument claim: two video-filter commands
collapse into one combined argument. -/
theorem assembler_single_vf_af_witness :
    (List.countP (fun pc => pc.ptype == "video-filter")
        ([⟨"video-filter",
          "-vf \"scale=1280:720:force_original_aspect_ratio=decrease,fade=in:0:10\"",
          30⟩] : List ProcessedCommand) ≤ 1) ∧
    (List.countP (fun pc => pc.ptype == "audio-filter")
        ([⟨"video-filter",
          "-vf \"scale=1280:720:force_original_aspect_ratio=decrease,fade=in:0:10\"",
          30⟩] : List ProcessedCommand) ≤ 1) :=
  assembler_single_vf_af [.Scale "1280" "720" "preserve", .Fade "in" "10s"]
    ⟨none, none⟩ _ (by rfl)
